import Mathlib

/-!
Verification of the async memoization wrapper (`memoize/wrapper.py`).

The wrapper's control flow is embedded shallowly: every effectful collaborator
call (storage, eviction strategy, update-status tracker, user work) is given
its outcome by an explicit environment record, and each function returns the
list of collaborator events it performed (in order) together with its result.
The update-status tracker itself (`memoize/statuses.py`) is not under `src/`;
its latch semantics are modelled from the spec (section 4.1): `mark_updated`
and `mark_update_aborted` resolve the notification future and remove the
registry row, so afterwards `is_being_updated` is false and the future is done.
-/

namespace Memoize

/-- UTC instants, as in `datetime` comparisons. -/
abbrev Time := Int

/-- Opaque cached values. -/
abbrev Value := Int

/-- Cache keys produced by the key extractor. -/
abbrev Key := Nat

/-- Exception objects that may be attached as a nested cause.
`unfinished` models `RuntimeError('Attempt to exit refresh with unfinished future')`. -/
inductive Cause
  | user (n : Nat)
  | timeoutErr (n : Nat)
  | unfinished
  deriving DecidableEq

/-- `memoize.entry.CacheEntry`: value plus three timestamps. -/
structure CacheEntry where
  created : Time
  update_after : Time
  expires_after : Time
  value : Value
  deriving DecidableEq

/-- Collaborator calls performed by the wrapper and the refresh coordinator,
recorded in program order. `offerOk`/`offerFailed` distinguish a storage
`offer` that stored the entry from one that raised. -/
inductive Event
  | awaitUpdated (k : Key)
  | markBeingUpdated (k : Key)
  | offerOk (k : Key) (e : CacheEntry)
  | offerFailed (k : Key) (c : Cause)
  | markUpdated (k : Key) (e : CacheEntry)
  | markUpdateAborted (k : Key) (c : Cause)
  | markWritten (k : Key) (e : CacheEntry)
  | scheduleRelease (k : Key)
  | setNotificationResult (k : Key) (c : Cause)
  | markRead (k : Key)
  | scheduleRefresh (k : Key)
  deriving DecidableEq

/-- Outcome of `await value_future` (wrapper.py line 103). `cancelled` models a
`BaseException` such as `asyncio.CancelledError`, which is caught by neither
`except asyncio.TimeoutError` nor `except Exception` and so reaches the
`finally` block directly. -/
inductive WorkOutcome
  | ok (v : Value)
  | timeoutError (c : Cause)
  | otherError (c : Cause)
  | cancelled (c : Cause)
  deriving DecidableEq

/-- Outcomes of the effectful calls made inside `refresh` (wrapper.py 76-136). -/
structure RefreshEnv where
  /-- `update_status_tracker.is_being_updated(key)` at entry (line 80). -/
  busy : Bool
  /-- What `await_updated(key)` delivers: an entry, or an exception object
  (the wrapper checks `isinstance(entry, Exception)`, line 84). -/
  awaited : Except Cause CacheEntry
  /-- `value_future_provider()` raising synchronously (lines 95-98). -/
  factoryFails : Option Cause
  /-- Outcome of awaiting the work future (line 103). -/
  work : WorkOutcome
  /-- `configuration_snapshot.entry_builder().build(key, value)` (line 104). -/
  build : Key → Value → CacheEntry
  /-- `storage().offer(key, offered_entry)` raising (line 105). -/
  offerFails : Option Cause
  /-- `eviction_strategy.mark_written(key, offered_entry)` raising (line 111). -/
  markWrittenFails : Option Cause
  /-- `eviction_strategy.next_to_release()` (line 112): the nominated victim,
  or an exception. -/
  nextToRelease : Except Cause (Option Key)

/-- Result of `refresh`: a returned entry, a `CachedMethodFailedException`
with its message and nested cause, or a propagated non-`Exception`
(cancellation). -/
inductive RefreshResult
  | entry (e : CacheEntry)
  | failed (msg : String) (cause : Cause)
  | raised (c : Cause)
  deriving DecidableEq

/-- Registry/latch state for the claimed key, as seen by the `finally` block:
`inRegistry` is `is_being_updated(key)`, `futureDone` is
`notification_future.done()`. -/
structure LatchState where
  inRegistry : Bool
  futureDone : Bool
  deriving DecidableEq

/-- Effect of one event on the latch state. Modelled from the spec (4.1):
`mark_updated` / `mark_update_aborted` resolve the latch and remove the
registry row; `notification_future.set_result` only marks the future done. -/
def applyEvent (st : LatchState) : Event → LatchState
  | .markBeingUpdated _ => ⟨true, false⟩
  | .markUpdated _ _ => ⟨false, true⟩
  | .markUpdateAborted _ _ => ⟨false, true⟩
  | .setNotificationResult _ _ => { st with futureDone := true }
  | _ => st

def applyEvents (st : LatchState) (tr : List Event) : LatchState :=
  tr.foldl applyEvent st

/-- The eviction block after a successful refresh (wrapper.py 109-119):
`mark_written`, then `next_to_release`; a nominated victim gets a background
release scheduled; any exception in the block is caught and logged. -/
def evictionEvents (env : RefreshEnv) (key : Key) (e : CacheEntry) : List Event :=
  match env.markWrittenFails with
  | some _ => [.markWritten key e]
  | none =>
    match env.nextToRelease with
    | .error _ => [.markWritten key e]
    | .ok none => [.markWritten key e]
    | .ok (some victim) => [.markWritten key e, .scheduleRelease victim]

/-- The `try` body and its `except` handlers (wrapper.py 102-129), entered
right after `mark_being_updated`. On `cancelled` no handler matches and the
exception propagates to the `finally` block. -/
def refreshBody (env : RefreshEnv) (key : Key) : List Event × RefreshResult :=
  match env.work with
  | .ok v =>
    let offered := env.build key v
    match env.offerFails with
    | some c =>
      ([.offerFailed key c, .markUpdateAborted key c], .failed "Refresh failed to complete" c)
    | none =>
      ([.offerOk key offered, .markUpdated key offered] ++ evictionEvents env key offered,
       .entry offered)
  | .timeoutError c => ([.markUpdateAborted key c], .failed "Refresh timed out" c)
  | .otherError c => ([.markUpdateAborted key c], .failed "Refresh failed to complete" c)
  | .cancelled c => ([], .raised c)

/-- The `finally` block (wrapper.py 130-136), as a function of the latch state
on entry: abort if the key is still registered, then set the notification
future's result if it is still unresolved. -/
def finallyEvents (key : Key) (st : LatchState) : List Event :=
  let ev1 : List Event := if st.inRegistry then [.markUpdateAborted key .unfinished] else []
  let st1 := applyEvents st ev1
  ev1 ++ (if st1.futureDone then [] else [.setNotificationResult key .unfinished])

/-- `refresh` (wrapper.py 76-136). The rendezvous branch (80-90) runs when the
key is already being updated; otherwise the work is instantiated (93-98), the
key claimed (101), and the body plus `finally` run. -/
def refresh (env : RefreshEnv) (actual_entry : Option CacheEntry) (key : Key) :
    List Event × RefreshResult :=
  if env.busy then
    match actual_entry with
    | none =>
      match env.awaited with
      | .error c => ([.awaitUpdated key], .failed "Concurrent refresh failed to complete" c)
      | .ok e => ([.awaitUpdated key], .entry e)
    | some e => ([], .entry e)
  else
    match env.factoryFails with
    | some c => ([], .failed "Refresh failed to start" c)
    | none =>
      let claimed : LatchState := ⟨true, false⟩
      let body := refreshBody env key
      let stAfter := applyEvents claimed body.1
      (Event.markBeingUpdated key :: body.1 ++ finallyEvents key stAfter, body.2)

/-- Collaborator calls performed by `try_release`. -/
inductive REvent
  | releaseOk (k : Key)
  | releaseFailed (k : Key) (c : Cause)
  | markReleased (k : Key)
  deriving DecidableEq

/-- Outcomes of the effectful calls inside `try_release` (wrapper.py 64-74). -/
structure ReleaseEnv where
  busy : Bool
  releaseFails : Option Cause
  markReleasedFails : Option Cause
  deriving DecidableEq

/-- `try_release` (wrapper.py 64-74): skip keys with an in-flight refresh;
otherwise release from storage and notify eviction, returning `false` and
logging if either raises. -/
def try_release (env : ReleaseEnv) (key : Key) : List REvent × Bool :=
  if env.busy then ([], false)
  else
    match env.releaseFails with
    | some c => ([.releaseFailed key c], false)
    | none =>
      match env.markReleasedFails with
      | some _ => ([.releaseOk key], false)
      | none => ([.releaseOk key, .markReleased key], true)

/-- Python call-argument values, enough to model the keyword-flag handling. -/
inductive PyVal
  | bool (b : Bool)
  | int (n : Int)
  | str (s : String)
  deriving DecidableEq

/-- Python truthiness, used by `if force_refresh:`. -/
def truthy : PyVal → Bool
  | .bool b => b
  | .int n => n != 0
  | .str s => s != ""

/-- Keyword arguments as an association list with distinct names. -/
abbrev Kwargs := List (String × PyVal)

/-- `kwargs.pop(name, default)`: the value under `name` (or the default) and
the dictionary with `name` removed. -/
def popKwarg (name : String) (default : PyVal) (kw : Kwargs) : PyVal × Kwargs :=
  match kw.find? (fun p => p.1 == name) with
  | some p => (p.2, kw.filter (fun q => q.1 != name))
  | none => (default, kw)

/-- The force flag the wrapper actually pops (wrapper.py 146):
`kwargs.pop('force_refresh_memoized', False)` interpreted as a boolean. -/
def forceFlag (kwargs : Kwargs) : Bool :=
  truthy (popKwarg "force_refresh_memoized" (.bool false) kwargs).1

/-- The keyword arguments after the pop: what reaches the key extractor and
the user callable. -/
def strippedKwargs (kwargs : Kwargs) : Kwargs :=
  (popKwarg "force_refresh_memoized" (.bool false) kwargs).2

/-- Outcomes of the effectful calls made by the wrapper facade itself. -/
structure WrapperEnv where
  /-- `configuration.configured()` (line 141). -/
  configured : Bool
  /-- `key_extractor().format_key(method, args, kwargs)` (line 147). -/
  format_key : List PyVal → Kwargs → Key
  /-- `await storage().get(key)` (line 149): entry, absence, or a raised
  exception. There is no `try` around this call in the source. -/
  getResult : Except Cause (Option CacheEntry)
  /-- `datetime.datetime.now(datetime.timezone.utc)` (line 153). -/
  now : Time
  /-- `postprocessing().apply` (line 181). -/
  postprocess : Value → Value
  /-- Outcomes for the `refresh` call this wrapper invocation may make. -/
  renv : RefreshEnv

/-- Result of one call to the memoized callable. `raised` is a native
exception propagated as-is (not wrapped in `CachedMethodFailedException`). -/
inductive CallResult
  | value (v : Value)
  | failed (msg : String) (cause : Cause)
  | raised (c : Cause)
  | notConfigured
  deriving DecidableEq

/-- The key this call derives: extractor applied to the positional arguments
and the popped keyword arguments (wrapper.py 146-147). -/
def callKey (env : WrapperEnv) (args : List PyVal) (kwargs : Kwargs) : Key :=
  env.format_key args (strippedKwargs kwargs)

/-- Turn a `refresh` outcome into the wrapper's return (wrapper.py 162-181):
prepend the events performed before the refresh, then apply post-processing
to a returned entry's value, or propagate the failure. -/
def refreshToCall (post : Value → Value) (pre : List Event)
    (r : List Event × RefreshResult) : List Event × CallResult :=
  match r.2 with
  | .entry e => (pre ++ r.1, .value (post e.value))
  | .failed m c => (pre ++ r.1, .failed m c)
  | .raised c => (pre ++ r.1, .raised c)

/-- The wrapper facade `wrapper` (wrapper.py 140-181): configuration check,
pop of `force_refresh_memoized`, key derivation, storage `get` (unguarded),
eviction `mark_read` on a hit, then dispatch on the entry's freshness. The
soft-stale branch schedules a background refresh via `call_soon` and returns
the current entry without running it. -/
def wrapper (env : WrapperEnv) (args : List PyVal) (kwargs : Kwargs) :
    List Event × CallResult :=
  if env.configured = false then ([], .notConfigured)
  else
    let force_refresh := forceFlag kwargs
    let key := callKey env args kwargs
    match env.getResult with
    | .error c => ([], .raised c)
    | .ok current_entry =>
      match current_entry with
      | none => refreshToCall env.postprocess [] (refresh env.renv none key)
      | some e =>
        if force_refresh then
          refreshToCall env.postprocess [.markRead key] (refresh env.renv (some e) key)
        else if e.expires_after ≤ env.now then
          refreshToCall env.postprocess [.markRead key] (refresh env.renv none key)
        else if e.update_after ≤ env.now then
          ([.markRead key, .scheduleRefresh key], .value (env.postprocess e.value))
        else
          ([.markRead key], .value (env.postprocess e.value))

/-!
Interleaving model for the single-flight property (claim about concurrent
callers of one missing key). Each caller runs the wrapper on the same key with
an initially empty storage. Under cooperative scheduling (spec section 5)
there is no suspension between the storage read, the `is_being_updated` check
(line 80) and `mark_being_updated` (line 101), so `enter` is one atomic step.
The work future, the `offer`, and the latch wait are suspension points, so
work completion, offer-plus-`mark_updated`, abort, and waiter wake-up are
separate steps that interleave freely.
-/

/-- What one caller ultimately receives: a value, or the single surfaced
failure kind (`CachedMethodFailedException`). -/
inductive Outcome
  | value (v : Value)
  | failure
  deriving DecidableEq

/-- Where one caller stands: not yet entered; attached to the latch; holding
the claim with work in flight; work done and about to offer; work failed and
about to abort; or finished with an outcome. -/
inductive Phase
  | ready
  | waiter
  | leader
  | offering (v : Value)
  | failing
  | done (o : Outcome)
  deriving DecidableEq

/-- Phases that hold the single-flight claim (between `mark_being_updated`
and the latch resolution). -/
def Phase.active : Phase → Bool
  | .leader => true
  | .offering _ => true
  | .failing => true
  | _ => false

/-- The entry builder fixed for the scenario. -/
def builtEntry (v : Value) : CacheEntry := ⟨0, 10, 20, v⟩

/-- Shared state: caller phases, the storage row for the key, the tracker's
`is_being_updated` bit, the resolved latch outcome if any, and how many times
user work has been started. -/
structure Sys where
  callers : Nat → Phase
  storage : Option CacheEntry
  busy : Bool
  latch : Option Outcome
  invocations : Nat

def setCaller (f : Nat → Phase) (i : Nat) (p : Phase) : Nat → Phase :=
  fun j => if j = i then p else f j

/-- Scheduler actions: caller `i` enters (storage read plus lines 80-101,
atomic under cooperative scheduling); its work future completes with a value
or an exception; the leader performs `offer` plus `mark_updated` (lines
105-106); or `mark_update_aborted` (lines 124/128); a waiter's
`await_updated` resumes once the latch is resolved. -/
inductive Action
  | enter (i : Nat)
  | workOk (i : Nat) (v : Value)
  | workErr (i : Nat)
  | offerDone (i : Nat)
  | abortDone (i : Nat)
  | wake (i : Nat)
  deriving DecidableEq

def Action.isEnter : Action → Bool
  | .enter _ => true
  | _ => false

/-- Actions that resolve the latch. -/
def Action.isResolve : Action → Bool
  | .offerDone _ => true
  | .abortDone _ => true
  | _ => false

/-- One scheduler step; an action whose precondition does not hold is a
no-op. -/
def step (s : Sys) : Action → Sys
  | .enter i =>
    match s.callers i with
    | .ready =>
      match s.storage with
      | some e => { s with callers := setCaller s.callers i (.done (.value e.value)) }
      | none =>
        if s.busy then { s with callers := setCaller s.callers i .waiter }
        else { s with callers := setCaller s.callers i .leader,
                      busy := true, invocations := s.invocations + 1 }
    | _ => s
  | .workOk i v =>
    match s.callers i with
    | .leader => { s with callers := setCaller s.callers i (.offering v) }
    | _ => s
  | .workErr i =>
    match s.callers i with
    | .leader => { s with callers := setCaller s.callers i .failing }
    | _ => s
  | .offerDone i =>
    match s.callers i with
    | .offering v =>
      { s with callers := setCaller s.callers i (.done (.value v)),
               storage := some (builtEntry v), busy := false, latch := some (.value v) }
    | _ => s
  | .abortDone i =>
    match s.callers i with
    | .failing =>
      { s with callers := setCaller s.callers i (.done .failure),
               busy := false, latch := some .failure }
    | _ => s
  | .wake i =>
    match s.callers i, s.latch with
    | .waiter, some o => { s with callers := setCaller s.callers i (.done o) }
    | _, _ => s

def run (s : Sys) : List Action → Sys
  | [] => s
  | a :: rest => run (step s a) rest

/-- Initial state: empty storage, no refresh in flight, everyone ready. -/
def init : Sys := ⟨fun _ => .ready, none, false, none, 0⟩

/-- At most one caller holds the claim. -/
def AtMostOneActive (s : Sys) : Prop :=
  ∀ i j, (s.callers i).active = true → (s.callers j).active = true → i = j

/-- No caller has finished yet. -/
def NoDone (s : Sys) : Prop := ∀ i o, s.callers i ≠ .done o

/-- State invariant before any latch resolution: storage still empty, latch
unresolved, user work started exactly when the key is claimed, at most one
claimant, everyone idle while the key is unclaimed, nobody finished. -/
def InvA (s : Sys) : Prop :=
  s.storage = none ∧ s.latch = none ∧
  s.invocations = (if s.busy then 1 else 0) ∧
  AtMostOneActive s ∧
  (s.busy = false → ∀ i, s.callers i = .ready) ∧
  NoDone s

/-- State invariant after the latch resolved with outcome `o`: work was
started at most once and every caller is untouched, still waiting, or
finished with exactly `o`. -/
def InvB (s : Sys) : Prop :=
  ∃ o, s.latch = some o ∧ s.busy = false ∧ s.invocations ≤ 1 ∧
    ∀ i, s.callers i = .ready ∨ s.callers i = .waiter ∨ s.callers i = .done o

theorem setCaller_apply (f : Nat → Phase) (i : Nat) (p : Phase) (j : Nat) :
    setCaller f i p j = if j = i then p else f j := rfl

theorem initInvA : InvA init := by
  refine ⟨rfl, rfl, rfl, ?_, ?_, ?_⟩
  · intro i j hi _
    simp [init, Phase.active] at hi
  · intro _ i
    rfl
  · intro i o h
    simp [init] at h

theorem active_of_setCaller {f : Nat → Phase} {i j : Nat} {p : Phase}
    (h : ((setCaller f i p) j).active = true) :
    (j = i ∧ p.active = true) ∨ (j ≠ i ∧ (f j).active = true) := by
  by_cases hji : j = i
  · subst hji
    left
    exact ⟨rfl, by simpa [setCaller] using h⟩
  · right
    exact ⟨hji, by simpa [setCaller, hji] using h⟩

theorem setCaller_ne_done {f : Nat → Phase} (hnd : ∀ j o, f j ≠ .done o) {i : Nat} {p : Phase}
    (hp : ∀ o, p ≠ .done o) : ∀ j o, setCaller f i p j ≠ .done o := by
  intro j o
  by_cases hji : j = i
  · subst hji
    simpa [setCaller] using hp o
  · simpa [setCaller, hji] using hnd j o

/-- While the key is claimed, parking one caller in a passive, unfinished
phase keeps the pre-resolution invariant. -/
theorem invA_set_busy_passive {s : Sys} (h : InvA s) (hb : s.busy = true) {i : Nat} {p : Phase}
    (hpa : p.active = false) (hpd : ∀ o, p ≠ .done o) :
    InvA { s with callers := setCaller s.callers i p } := by
  obtain ⟨hst, hlatch, hinv, hone, hready, hnodone⟩ := h
  refine ⟨hst, hlatch, hinv, ?_, ?_, ?_⟩
  · intro j k hj hk
    rcases active_of_setCaller hj with ⟨_, hp⟩ | ⟨_, hj'⟩
    · rw [hpa] at hp
      exact absurd hp (by simp)
    · rcases active_of_setCaller hk with ⟨_, hp⟩ | ⟨_, hk'⟩
      · rw [hpa] at hp
        exact absurd hp (by simp)
      · exact hone j k hj' hk'
  · intro hbf
    rw [hbf] at hb
    exact absurd hb (by simp)
  · exact setCaller_ne_done hnodone hpd

/-- Moving the unique claimant from one active phase to another keeps the
pre-resolution invariant. -/
theorem invA_set_active_swap {s : Sys} (h : InvA s) {i : Nat}
    (hi : (s.callers i).active = true) {p : Phase}
    (hpd : ∀ o, p ≠ .done o) :
    InvA { s with callers := setCaller s.callers i p } := by
  obtain ⟨hst, hlatch, hinv, hone, hready, hnodone⟩ := h
  refine ⟨hst, hlatch, hinv, ?_, ?_, ?_⟩
  · intro j k hj hk
    rcases active_of_setCaller hj with ⟨hji, _⟩ | ⟨_, hj'⟩
    · rcases active_of_setCaller hk with ⟨hki, _⟩ | ⟨_, hk'⟩
      · rw [hji, hki]
      · rw [hji]
        exact (hone k i hk' hi).symm
    · rcases active_of_setCaller hk with ⟨hki, _⟩ | ⟨_, hk'⟩
      · rw [hki]
        exact hone j i hj' hi
      · exact hone j k hj' hk'
  · intro hbf
    have := hready hbf i
    rw [this] at hi
    exact absurd hi (by simp [Phase.active])
  · exact setCaller_ne_done hnodone hpd

/-- Steps that do not resolve the latch keep the pre-resolution invariant. -/
theorem stepA_preserves (s : Sys) (a : Action) (ha : a.isResolve = false)
    (h : InvA s) : InvA (step s a) := by
  have hInv := h
  obtain ⟨hst, hlatch, hinv, hone, hready, hnodone⟩ := h
  cases a with
  | enter i =>
    cases hc : s.callers i with
    | ready =>
      cases hb : s.busy with
      | true =>
        have hstate : step s (.enter i) =
            { s with callers := setCaller s.callers i .waiter } := by
          simp [step, hc, hst, hb]
        rw [hstate]
        exact invA_set_busy_passive hInv hb rfl (by intro o hcon; exact absurd hcon (by simp))
      | false =>
        have hstate : step s (.enter i) =
            { s with callers := setCaller s.callers i .leader,
                     busy := true, invocations := s.invocations + 1 } := by
          simp [step, hc, hst, hb]
        rw [hstate]
        refine ⟨hst, hlatch, ?_, ?_, ?_, ?_⟩
        · show s.invocations + 1 = if true = true then 1 else 0
          rw [hb] at hinv
          simp at hinv ⊢
          omega
        · intro j k hj hk
          rcases active_of_setCaller hj with ⟨hji, _⟩ | ⟨_, hj'⟩
          · rcases active_of_setCaller hk with ⟨hki, _⟩ | ⟨_, hk'⟩
            · rw [hji, hki]
            · rw [hready hb k] at hk'
              exact absurd hk' (by simp [Phase.active])
          · rw [hready hb j] at hj'
            exact absurd hj' (by simp [Phase.active])
        · intro hfalse
          exact absurd hfalse (by simp)
        · exact setCaller_ne_done hnodone (by intro o hcon; exact absurd hcon (by simp))
    | waiter =>
      have hstate : step s (.enter i) = s := by simp [step, hc]
      rw [hstate]; exact hInv
    | leader =>
      have hstate : step s (.enter i) = s := by simp [step, hc]
      rw [hstate]; exact hInv
    | offering v =>
      have hstate : step s (.enter i) = s := by simp [step, hc]
      rw [hstate]; exact hInv
    | failing =>
      have hstate : step s (.enter i) = s := by simp [step, hc]
      rw [hstate]; exact hInv
    | done o =>
      have hstate : step s (.enter i) = s := by simp [step, hc]
      rw [hstate]; exact hInv
  | workOk i v =>
    cases hc : s.callers i with
    | leader =>
      have hstate : step s (.workOk i v) =
          { s with callers := setCaller s.callers i (.offering v) } := by
        simp [step, hc]
      rw [hstate]
      exact invA_set_active_swap hInv (by simp [hc, Phase.active])
        (by intro o hcon; exact absurd hcon (by simp))
    | ready =>
      have hstate : step s (.workOk i v) = s := by simp [step, hc]
      rw [hstate]; exact hInv
    | waiter =>
      have hstate : step s (.workOk i v) = s := by simp [step, hc]
      rw [hstate]; exact hInv
    | offering w =>
      have hstate : step s (.workOk i v) = s := by simp [step, hc]
      rw [hstate]; exact hInv
    | failing =>
      have hstate : step s (.workOk i v) = s := by simp [step, hc]
      rw [hstate]; exact hInv
    | done o =>
      have hstate : step s (.workOk i v) = s := by simp [step, hc]
      rw [hstate]; exact hInv
  | workErr i =>
    cases hc : s.callers i with
    | leader =>
      have hstate : step s (.workErr i) =
          { s with callers := setCaller s.callers i .failing } := by
        simp [step, hc]
      rw [hstate]
      exact invA_set_active_swap hInv (by simp [hc, Phase.active])
        (by intro o hcon; exact absurd hcon (by simp))
    | ready =>
      have hstate : step s (.workErr i) = s := by simp [step, hc]
      rw [hstate]; exact hInv
    | waiter =>
      have hstate : step s (.workErr i) = s := by simp [step, hc]
      rw [hstate]; exact hInv
    | offering w =>
      have hstate : step s (.workErr i) = s := by simp [step, hc]
      rw [hstate]; exact hInv
    | failing =>
      have hstate : step s (.workErr i) = s := by simp [step, hc]
      rw [hstate]; exact hInv
    | done o =>
      have hstate : step s (.workErr i) = s := by simp [step, hc]
      rw [hstate]; exact hInv
  | offerDone i => simp [Action.isResolve] at ha
  | abortDone i => simp [Action.isResolve] at ha
  | wake i =>
    have hstate : step s (.wake i) = s := by
      cases hc : s.callers i <;> simp [step, hc, hlatch]
    rw [hstate]; exact hInv

/-- Steps that are not an `enter` keep the disjunction of the two phase
invariants: a resolution moves `InvA` to `InvB`, everything else stays put. -/
theorem stepAB_preserves (s : Sys) (a : Action) (ha : a.isEnter = false)
    (h : InvA s ∨ InvB s) : InvA (step s a) ∨ InvB (step s a) := by
  rcases h with hA | hB
  · have hInv := hA
    obtain ⟨hst, hlatch, hinv, hone, hready, hnodone⟩ := hA
    cases a with
    | enter i => simp [Action.isEnter] at ha
    | workOk i v => exact Or.inl (stepA_preserves s (.workOk i v) rfl hInv)
    | workErr i => exact Or.inl (stepA_preserves s (.workErr i) rfl hInv)
    | wake i => exact Or.inl (stepA_preserves s (.wake i) rfl hInv)
    | offerDone i =>
      cases hc : s.callers i with
      | offering v =>
        have hiact : (s.callers i).active = true := by simp [hc, Phase.active]
        have hb : s.busy = true := by
          cases hbv : s.busy
          · have := hready hbv i
            rw [this] at hc
            exact absurd hc (by simp)
          · rfl
        have hstate : step s (.offerDone i) =
            { s with callers := setCaller s.callers i (.done (.value v)),
                     storage := some (builtEntry v), busy := false,
                     latch := some (.value v) } := by
          simp [step, hc]
        rw [hstate]
        refine Or.inr ⟨.value v, rfl, rfl, ?_, ?_⟩
        · show s.invocations ≤ 1
          rw [hb] at hinv
          simp at hinv
          omega
        · intro j
          by_cases hji : j = i
          · subst hji
            right; right
            simp [setCaller]
          · have hkeep : setCaller s.callers i (.done (.value v)) j = s.callers j := by
              simp [setCaller, hji]
            show setCaller s.callers i (.done (.value v)) j = _ ∨
              setCaller s.callers i (.done (.value v)) j = _ ∨
              setCaller s.callers i (.done (.value v)) j = _
            rw [hkeep]
            cases hcj : s.callers j with
            | ready => exact Or.inl rfl
            | waiter => exact Or.inr (Or.inl rfl)
            | leader => exact absurd (hone j i (by simp [hcj, Phase.active]) hiact) hji
            | offering w => exact absurd (hone j i (by simp [hcj, Phase.active]) hiact) hji
            | failing => exact absurd (hone j i (by simp [hcj, Phase.active]) hiact) hji
            | done o => exact absurd hcj (hnodone j o)
      | ready =>
        have hstate : step s (.offerDone i) = s := by simp [step, hc]
        rw [hstate]; exact Or.inl hInv
      | waiter =>
        have hstate : step s (.offerDone i) = s := by simp [step, hc]
        rw [hstate]; exact Or.inl hInv
      | leader =>
        have hstate : step s (.offerDone i) = s := by simp [step, hc]
        rw [hstate]; exact Or.inl hInv
      | failing =>
        have hstate : step s (.offerDone i) = s := by simp [step, hc]
        rw [hstate]; exact Or.inl hInv
      | done o =>
        have hstate : step s (.offerDone i) = s := by simp [step, hc]
        rw [hstate]; exact Or.inl hInv
    | abortDone i =>
      cases hc : s.callers i with
      | failing =>
        have hiact : (s.callers i).active = true := by simp [hc, Phase.active]
        have hb : s.busy = true := by
          cases hbv : s.busy
          · have := hready hbv i
            rw [this] at hc
            exact absurd hc (by simp)
          · rfl
        have hstate : step s (.abortDone i) =
            { s with callers := setCaller s.callers i (.done .failure),
                     busy := false, latch := some .failure } := by
          simp [step, hc]
        rw [hstate]
        refine Or.inr ⟨.failure, rfl, rfl, ?_, ?_⟩
        · show s.invocations ≤ 1
          rw [hb] at hinv
          simp at hinv
          omega
        · intro j
          by_cases hji : j = i
          · subst hji
            right; right
            simp [setCaller]
          · have hkeep : setCaller s.callers i (.done .failure) j = s.callers j := by
              simp [setCaller, hji]
            show setCaller s.callers i (.done .failure) j = _ ∨
              setCaller s.callers i (.done .failure) j = _ ∨
              setCaller s.callers i (.done .failure) j = _
            rw [hkeep]
            cases hcj : s.callers j with
            | ready => exact Or.inl rfl
            | waiter => exact Or.inr (Or.inl rfl)
            | leader => exact absurd (hone j i (by simp [hcj, Phase.active]) hiact) hji
            | offering w => exact absurd (hone j i (by simp [hcj, Phase.active]) hiact) hji
            | failing => exact absurd (hone j i (by simp [hcj, Phase.active]) hiact) hji
            | done o => exact absurd hcj (hnodone j o)
      | ready =>
        have hstate : step s (.abortDone i) = s := by simp [step, hc]
        rw [hstate]; exact Or.inl hInv
      | waiter =>
        have hstate : step s (.abortDone i) = s := by simp [step, hc]
        rw [hstate]; exact Or.inl hInv
      | leader =>
        have hstate : step s (.abortDone i) = s := by simp [step, hc]
        rw [hstate]; exact Or.inl hInv
      | offering v =>
        have hstate : step s (.abortDone i) = s := by simp [step, hc]
        rw [hstate]; exact Or.inl hInv
      | done o =>
        have hstate : step s (.abortDone i) = s := by simp [step, hc]
        rw [hstate]; exact Or.inl hInv
  · obtain ⟨o, hlatch, hb, hinv, hcal⟩ := hB
    have hBfull : InvB s := ⟨o, hlatch, hb, hinv, hcal⟩
    cases a with
    | enter i => simp [Action.isEnter] at ha
    | workOk i v =>
      have hstate : step s (.workOk i v) = s := by
        rcases hcal i with hc | hc | hc <;> simp [step, hc]
      rw [hstate]; exact Or.inr hBfull
    | workErr i =>
      have hstate : step s (.workErr i) = s := by
        rcases hcal i with hc | hc | hc <;> simp [step, hc]
      rw [hstate]; exact Or.inr hBfull
    | offerDone i =>
      have hstate : step s (.offerDone i) = s := by
        rcases hcal i with hc | hc | hc <;> simp [step, hc]
      rw [hstate]; exact Or.inr hBfull
    | abortDone i =>
      have hstate : step s (.abortDone i) = s := by
        rcases hcal i with hc | hc | hc <;> simp [step, hc]
      rw [hstate]; exact Or.inr hBfull
    | wake i =>
      rcases hcal i with hc | hc | hc
      · have hstate : step s (.wake i) = s := by simp [step, hc]
        rw [hstate]; exact Or.inr hBfull
      · have hstate : step s (.wake i) =
            { s with callers := setCaller s.callers i (.done o) } := by
          simp [step, hc, hlatch]
        rw [hstate]
        refine Or.inr ⟨o, hlatch, hb, hinv, ?_⟩
        intro j
        by_cases hji : j = i
        · subst hji
          right; right
          simp [setCaller]
        · have hkeep : setCaller s.callers i (.done o) j = s.callers j := by
            simp [setCaller, hji]
          show setCaller s.callers i (.done o) j = _ ∨
            setCaller s.callers i (.done o) j = _ ∨
            setCaller s.callers i (.done o) j = _
          rw [hkeep]
          exact hcal j
      · have hstate : step s (.wake i) = s := by simp [step, hc]
        rw [hstate]; exact Or.inr hBfull

theorem run_append (s : Sys) (xs ys : List Action) :
    run s (xs ++ ys) = run (run s xs) ys := by
  induction xs generalizing s with
  | nil => rfl
  | cons a rest ih =>
    show run (step s a) (rest ++ ys) = run (run s (a :: rest)) ys
    rw [ih]
    rfl

theorem runA_preserves (xs : List Action) (hxs : ∀ a ∈ xs, a.isResolve = false) :
    ∀ s, InvA s → InvA (run s xs) := by
  induction xs with
  | nil => intro s h; exact h
  | cons a rest ih =>
    intro s h
    exact ih (fun b hb => hxs b (List.mem_cons_of_mem a hb)) (step s a)
      (stepA_preserves s a (hxs a (List.mem_cons_self a rest)) h)

theorem runAB_preserves (ys : List Action) (hys : ∀ a ∈ ys, a.isEnter = false) :
    ∀ s, InvA s ∨ InvB s → InvA (run s ys) ∨ InvB (run s ys) := by
  induction ys with
  | nil => intro s h; exact h
  | cons a rest ih =>
    intro s h
    exact ih (fun b hb => hys b (List.mem_cons_of_mem a hb)) (step s a)
      (stepAB_preserves s a (hys a (List.mem_cons_self a rest)) h)

theorem atMostOne_of_invAB {s : Sys} (h : InvA s ∨ InvB s) : AtMostOneActive s := by
  rcases h with ⟨_, _, _, hone, _, _⟩ | ⟨o, _, _, _, hcal⟩
  · exact hone
  · intro i j hi _
    rcases hcal i with h1 | h1 | h1 <;> rw [h1] at hi <;>
      exact absurd hi (by simp [Phase.active])

theorem conclusions_of_invAB {s : Sys} (h : InvA s ∨ InvB s) :
    s.invocations ≤ 1 ∧
      ∀ i j oi oj, s.callers i = .done oi → s.callers j = .done oj → oi = oj := by
  rcases h with ⟨_, _, hinv, _, _, hnodone⟩ | ⟨o, _, _, hinv, hcal⟩
  · constructor
    · rw [hinv]
      cases s.busy <;> simp
    · intro i j oi oj hi _
      exact absurd hi (hnodone i oi)
  · refine ⟨hinv, ?_⟩
    intro i j oi oj hi hj
    have h1 : oi = o := by
      rcases hcal i with h1 | h1 | h1 <;> rw [h1] at hi
      · exact absurd hi (by simp)
      · exact absurd hi (by simp)
      · injection hi with h2
        exact h2.symm
    have h2 : oj = o := by
      rcases hcal j with h1 | h1 | h1 <;> rw [h1] at hj
      · exact absurd hj (by simp)
      · exact absurd hj (by simp)
      · injection hj with h2
        exact h2.symm
    rw [h1, h2]

/-- C2: for concurrent callers on one missing key — every caller's `enter`
occurs before any latch resolution — the user work is started at most once,
all callers that finish receive the same outcome (the same value or the one
surfaced failure kind), and at every point of every schedule at most one
refresh is in flight for the key. -/
theorem C2_single_flight_same_outcome (xs ys : List Action)
    (hxs : ∀ a ∈ xs, a.isResolve = false)
    (hys : ∀ a ∈ ys, a.isEnter = false) :
    (run init (xs ++ ys)).invocations ≤ 1 ∧
    (∀ i j oi oj, (run init (xs ++ ys)).callers i = .done oi →
        (run init (xs ++ ys)).callers j = .done oj → oi = oj) ∧
    (∀ zs ws, xs ++ ys = zs ++ ws → AtMostOneActive (run init zs)) := by
  have hA : InvA (run init xs) := runA_preserves xs hxs init initInvA
  have hAB : InvA (run init (xs ++ ys)) ∨ InvB (run init (xs ++ ys)) := by
    rw [run_append]
    exact runAB_preserves ys hys _ (Or.inl hA)
  obtain ⟨h1, h2⟩ := conclusions_of_invAB hAB
  refine ⟨h1, h2, ?_⟩
  intro zs ws hsplit
  rcases List.append_eq_append_iff.mp hsplit with ⟨a', hz, hy⟩ | ⟨c', hx, hw⟩
  · subst hz
    rw [run_append]
    refine atMostOne_of_invAB (runAB_preserves a' ?_ _ (Or.inl hA))
    intro b hb
    exact hys b (by rw [hy]; exact List.mem_append_left ws hb)
  · refine atMostOne_of_invAB (Or.inl (runA_preserves zs ?_ init initInvA))
    intro b hb
    exact hxs b (by rw [hx]; exact List.mem_append_left c' hb)

/-- Concrete schedule: callers 0, 1, 2 race on the missing key, caller 0
claims it, its work succeeds, the waiters are woken; work ran once. -/
theorem C2_single_flight_same_outcome_witness :
    (run init ([.enter 0, .enter 1, .enter 2, .workOk 0 7] ++
      [.offerDone 0, .wake 1, .wake 2])).invocations ≤ 1 :=
  (C2_single_flight_same_outcome
    [.enter 0, .enter 1, .enter 2, .workOk 0 7] [.offerDone 0, .wake 1, .wake 2]
    (by decide) (by decide)).1

/-- Eviction-block events never touch the latch or the registry row. -/
theorem applyEvents_evictionEvents (env : RefreshEnv) (key : Key) (e : CacheEntry)
    (st : LatchState) : List.foldl applyEvent st (evictionEvents env key e) = st := by
  unfold evictionEvents
  cases env.markWrittenFails with
  | some c => rfl
  | none =>
    cases env.nextToRelease with
    | error c => rfl
    | ok o => cases o <;> rfl

/-- C3: entering `refresh` while a refresh for the key is in flight: a caller
with no entry awaits the latch and returns the delivered entry, or fails with
"Concurrent refresh failed to complete" carrying the latch's failure as
cause; a caller holding an entry returns it at once, performing no
collaborator call at all. -/
theorem C3_rendezvous (env : RefreshEnv) (key : Key) (hbusy : env.busy = true) :
    (∀ c, env.awaited = .error c →
      refresh env none key =
        ([.awaitUpdated key], .failed "Concurrent refresh failed to complete" c)) ∧
    (∀ e, env.awaited = .ok e →
      refresh env none key = ([.awaitUpdated key], .entry e)) ∧
    (∀ e, refresh env (some e) key = ([], .entry e)) := by
  refine ⟨?_, ?_, ?_⟩
  · intro c haw
    simp [refresh, hbusy, haw]
  · intro e haw
    simp [refresh, hbusy, haw]
  · intro e
    simp [refresh, hbusy]

/-- C3 witness: a concrete rendezvous where the latch delivers an entry. -/
theorem C3_rendezvous_witness :
    refresh ⟨true, .ok ⟨0, 10, 20, 5⟩, none, .ok 5, fun _ v => ⟨0, 10, 20, v⟩, none, none,
        .ok none⟩ none 3 =
      ([.awaitUpdated 3], .entry ⟨0, 10, 20, 5⟩) :=
  (C3_rendezvous _ 3 rfl).2.1 ⟨0, 10, 20, 5⟩ rfl

/-- C4: a successful refresh offers the built entry to storage, then resolves
the latch with `mark_updated`, then notifies eviction with `mark_written`;
a nominated victim gets a background release scheduled; and a failure of
`mark_written` or `next_to_release` is swallowed, the new entry being
returned in every one of those cases. -/
theorem C4_success_order (env : RefreshEnv) (key : Key) (actual : Option CacheEntry) (v : Value)
    (hbusy : env.busy = false) (hf : env.factoryFails = none)
    (hw : env.work = .ok v) (hoffer : env.offerFails = none) :
    (refresh env actual key =
      (Event.markBeingUpdated key ::
        [.offerOk key (env.build key v), .markUpdated key (env.build key v)] ++
        evictionEvents env key (env.build key v),
       .entry (env.build key v))) ∧
    (∀ c, env.markWrittenFails = some c →
      evictionEvents env key (env.build key v) = [.markWritten key (env.build key v)]) ∧
    (∀ c, env.markWrittenFails = none → env.nextToRelease = .error c →
      evictionEvents env key (env.build key v) = [.markWritten key (env.build key v)]) ∧
    (env.markWrittenFails = none → env.nextToRelease = .ok none →
      evictionEvents env key (env.build key v) = [.markWritten key (env.build key v)]) ∧
    (∀ victim, env.markWrittenFails = none → env.nextToRelease = .ok (some victim) →
      evictionEvents env key (env.build key v) =
        [.markWritten key (env.build key v), .scheduleRelease victim]) := by
  refine ⟨?_, ?_, ?_, ?_, ?_⟩
  · simp [refresh, refreshBody, hbusy, hf, hw, hoffer, applyEvents, applyEvent,
      applyEvents_evictionEvents, finallyEvents]
  · intro c hmw
    simp [evictionEvents, hmw]
  · intro c hmw hnr
    simp [evictionEvents, hmw, hnr]
  · intro hmw hnr
    simp [evictionEvents, hmw, hnr]
  · intro victim hmw hnr
    simp [evictionEvents, hmw, hnr]

/-- C4 witness: concrete successful refresh with a nominated victim. -/
theorem C4_success_order_witness :
    refresh ⟨false, .error (.user 0), none, .ok 5, fun _ v => ⟨0, 10, 20, v⟩, none, none,
        .ok (some 9)⟩ none 3 =
      ([.markBeingUpdated 3, .offerOk 3 ⟨0, 10, 20, 5⟩, .markUpdated 3 ⟨0, 10, 20, 5⟩,
        .markWritten 3 ⟨0, 10, 20, 5⟩, .scheduleRelease 9], .entry ⟨0, 10, 20, 5⟩) := by
  have h := (C4_success_order ⟨false, .error (.user 0), none, .ok 5,
    fun _ v => ⟨0, 10, 20, v⟩, none, none, .ok (some 9)⟩ 3 none 5 rfl rfl rfl rfl).1
  rw [h]
  rfl

/-- C5: after the key is claimed, a timed-out work aborts the latch with the
timeout as cause and fails with "Refresh timed out"; any other work failure,
or a failing storage offer, aborts the latch and fails with "Refresh failed
to complete"; in all three cases nothing is stored (no successful offer
appears in the trace) and the native cause is attached, not surfaced. -/
theorem C5_failure_paths (env : RefreshEnv) (key : Key) (actual : Option CacheEntry)
    (hbusy : env.busy = false) (hf : env.factoryFails = none) :
    (∀ c, env.work = .timeoutError c →
      refresh env actual key =
        ([.markBeingUpdated key, .markUpdateAborted key c], .failed "Refresh timed out" c)) ∧
    (∀ c, env.work = .otherError c →
      refresh env actual key =
        ([.markBeingUpdated key, .markUpdateAborted key c],
         .failed "Refresh failed to complete" c)) ∧
    (∀ v c, env.work = .ok v → env.offerFails = some c →
      refresh env actual key =
        ([.markBeingUpdated key, .offerFailed key c, .markUpdateAborted key c],
         .failed "Refresh failed to complete" c)) := by
  refine ⟨?_, ?_, ?_⟩
  · intro c hw
    simp [refresh, refreshBody, hbusy, hf, hw, applyEvents, applyEvent, finallyEvents]
  · intro c hw
    simp [refresh, refreshBody, hbusy, hf, hw, applyEvents, applyEvent, finallyEvents]
  · intro v c hw hoffer
    simp [refresh, refreshBody, hbusy, hf, hw, hoffer, applyEvents, applyEvent, finallyEvents]

/-- C5 witness: concrete timeout. -/
theorem C5_failure_paths_witness :
    refresh ⟨false, .error (.user 0), none, .timeoutError (.timeoutErr 1),
        fun _ v => ⟨0, 10, 20, v⟩, none, none, .ok none⟩ none 3 =
      ([.markBeingUpdated 3, .markUpdateAborted 3 (.timeoutErr 1)],
       .failed "Refresh timed out" (.timeoutErr 1)) :=
  (C5_failure_paths _ 3 none rfl rfl).1 (.timeoutErr 1) rfl

/-- C6: once the key is claimed, every exit of `refresh` — success, timeout,
other failure, offer failure, or cancellation — leaves the latch resolved and
the key no longer reported as being updated; under cancellation the safety
net itself aborts the latch with the "unfinished refresh" error before the
exception propagates. -/
theorem C6_no_stranded_waiter (env : RefreshEnv) (key : Key) (actual : Option CacheEntry)
    (hbusy : env.busy = false) (hf : env.factoryFails = none) :
    Event.markBeingUpdated key ∈ (refresh env actual key).1 ∧
    applyEvents ⟨false, false⟩ (refresh env actual key).1 = ⟨false, true⟩ ∧
    (∀ c, env.work = .cancelled c →
      refresh env actual key =
        ([.markBeingUpdated key, .markUpdateAborted key .unfinished], .raised c)) := by
  refine ⟨?_, ?_, ?_⟩
  · cases hw : env.work with
    | ok v =>
      cases hoffer : env.offerFails with
      | some c => simp [refresh, refreshBody, hbusy, hf, hw, hoffer]
      | none => simp [refresh, refreshBody, hbusy, hf, hw, hoffer]
    | timeoutError c => simp [refresh, refreshBody, hbusy, hf, hw]
    | otherError c => simp [refresh, refreshBody, hbusy, hf, hw]
    | cancelled c => simp [refresh, refreshBody, hbusy, hf, hw, finallyEvents]
  · cases hw : env.work with
    | ok v =>
      cases hoffer : env.offerFails with
      | some c =>
        simp [refresh, refreshBody, hbusy, hf, hw, hoffer, applyEvents, applyEvent,
          finallyEvents]
      | none =>
        simp [refresh, refreshBody, hbusy, hf, hw, hoffer, applyEvents, applyEvent,
          finallyEvents, applyEvents_evictionEvents]
    | timeoutError c =>
      simp [refresh, refreshBody, hbusy, hf, hw, applyEvents, applyEvent, finallyEvents]
    | otherError c =>
      simp [refresh, refreshBody, hbusy, hf, hw, applyEvents, applyEvent, finallyEvents]
    | cancelled c =>
      simp [refresh, refreshBody, hbusy, hf, hw, applyEvents, applyEvent, finallyEvents]
  · intro c hw
    simp [refresh, refreshBody, hbusy, hf, hw, applyEvents, applyEvent, finallyEvents]

/-- C6 witness: concrete cancelled refresh; the safety net aborts the latch. -/
theorem C6_no_stranded_waiter_witness :
    applyEvents ⟨false, false⟩
      (refresh ⟨false, .error (.user 0), none, .cancelled (.user 2),
        fun _ v => ⟨0, 10, 20, v⟩, none, none, .ok none⟩ none 3).1 = ⟨false, true⟩ :=
  (C6_no_stranded_waiter _ 3 none rfl rfl).2.1

/-- C7: when instantiating the work future itself raises, `refresh` fails
with "Refresh failed to start" carrying the cause, without any collaborator
call: in particular `mark_being_updated` is never invoked, so no latch is
created and the registry is untouched. -/
theorem C7_failed_start (env : RefreshEnv) (key : Key) (actual : Option CacheEntry) (c : Cause)
    (hbusy : env.busy = false) (hf : env.factoryFails = some c) :
    refresh env actual key = ([], .failed "Refresh failed to start" c) := by
  simp [refresh, hbusy, hf]

/-- C7 witness. -/
theorem C7_failed_start_witness :
    refresh ⟨false, .error (.user 0), some (.user 4), .ok 5,
        fun _ v => ⟨0, 10, 20, v⟩, none, none, .ok none⟩ none 3 =
      ([], .failed "Refresh failed to start" (.user 4)) :=
  C7_failed_start _ 3 none (.user 4) rfl rfl

/-- C10: `try_release` returns `false` without touching storage while the key
has an in-flight refresh; otherwise it releases the key from storage and
notifies eviction via `mark_released`, and a failure of either is logged and
turned into `false` rather than propagated. -/
theorem C10_try_release (env : ReleaseEnv) (key : Key) :
    (env.busy = true → try_release env key = ([], false)) ∧
    (∀ c, env.busy = false → env.releaseFails = some c →
      try_release env key = ([.releaseFailed key c], false)) ∧
    (∀ c, env.busy = false → env.releaseFails = none → env.markReleasedFails = some c →
      try_release env key = ([.releaseOk key], false)) ∧
    (env.busy = false → env.releaseFails = none → env.markReleasedFails = none →
      try_release env key = ([.releaseOk key, .markReleased key], true)) := by
  refine ⟨?_, ?_, ?_, ?_⟩
  · intro hb
    simp [try_release, hb]
  · intro c hb hr
    simp [try_release, hb, hr]
  · intro c hb hr hm
    simp [try_release, hb, hr, hm]
  · intro hb hr hm
    simp [try_release, hb, hr, hm]

/-- C10 witness: key being updated is skipped. -/
theorem C10_try_release_witness :
    try_release ⟨true, none, none⟩ 3 = ([], false) :=
  (C10_try_release ⟨true, none, none⟩ 3).1 rfl

/-- A concrete refresh environment: no concurrent refresh, work returns 5,
every collaborator call succeeds, no eviction victim. -/
def demoRenv : RefreshEnv :=
  ⟨false, .error (.user 0), none, .ok 5, fun _ v => ⟨0, 10, 20, v⟩, none, none, .ok none⟩

/-- A concrete wrapper environment whose key extractor counts the keyword
arguments it is given (so the key shows whether the flag was stripped). -/
def demoFreshEnv : WrapperEnv :=
  ⟨true, fun _ kw => kw.length, .ok (some ⟨0, 10, 20, 5⟩), 3, fun v => v, demoRenv⟩

/-- The same environment but with `storage.get` raising. -/
def demoFailingGetEnv : WrapperEnv :=
  ⟨true, fun _ kw => kw.length, .error (.user 7), 3, fun v => v, demoRenv⟩

/-- C1: dispatch follows the freshness classification at the call's `now`:
no entry — blocking refresh with `current=None`; force flag — blocking
refresh with the existing entry; hard-expired — blocking refresh with
`current=None`, and the result is independent of the expired entry, whose
value therefore can never be returned; soft-stale — a background refresh is
scheduled and the pre-refresh value returned without waiting; fresh — the
entry is returned with no refresh; in each case the returned value is
post-processing applied to the chosen entry's value. -/
theorem C1_dispatch (env : WrapperEnv) (args : List PyVal) (kwargs : Kwargs)
    (cur : Option CacheEntry)
    (hconf : env.configured = true) (hget : env.getResult = .ok cur) :
    (cur = none →
      wrapper env args kwargs =
        refreshToCall env.postprocess [] (refresh env.renv none (callKey env args kwargs))) ∧
    (∀ e, cur = some e → forceFlag kwargs = true →
      wrapper env args kwargs =
        refreshToCall env.postprocess [.markRead (callKey env args kwargs)]
          (refresh env.renv (some e) (callKey env args kwargs))) ∧
    (∀ e, cur = some e → forceFlag kwargs = false → e.expires_after ≤ env.now →
      wrapper env args kwargs =
        refreshToCall env.postprocess [.markRead (callKey env args kwargs)]
          (refresh env.renv none (callKey env args kwargs)) ∧
      ∀ e', e'.expires_after ≤ env.now →
        wrapper { env with getResult := .ok (some e') } args kwargs =
          wrapper env args kwargs) ∧
    (∀ e, cur = some e → forceFlag kwargs = false →
        e.update_after ≤ env.now → env.now < e.expires_after →
      wrapper env args kwargs =
        ([.markRead (callKey env args kwargs), .scheduleRefresh (callKey env args kwargs)],
         .value (env.postprocess e.value))) ∧
    (∀ e, cur = some e → forceFlag kwargs = false →
        e.update_after ≤ e.expires_after → env.now < e.update_after →
      wrapper env args kwargs =
        ([.markRead (callKey env args kwargs)], .value (env.postprocess e.value))) := by
  refine ⟨?_, ?_, ?_, ?_, ?_⟩
  · intro hcur
    subst hcur
    simp [wrapper, hconf, hget, callKey]
  · intro e hcur hfr
    subst hcur
    simp [wrapper, hconf, hget, hfr, callKey]
  · intro e hcur hfr hexp
    subst hcur
    constructor
    · simp [wrapper, hconf, hget, hfr, hexp, callKey]
    · intro e' hexp'
      simp [wrapper, hconf, hget, hfr, hexp, hexp', callKey]
  · intro e hcur hfr hupd hexp
    subst hcur
    have hnexp : ¬ e.expires_after ≤ env.now := not_le.mpr hexp
    simp [wrapper, hconf, hget, hfr, hnexp, hupd, callKey]
  · intro e hcur hfr hwf hupd
    subst hcur
    have hnupd : ¬ e.update_after ≤ env.now := not_le.mpr hupd
    have hnexp : ¬ e.expires_after ≤ env.now :=
      not_le.mpr (lt_of_lt_of_le hupd hwf)
    simp [wrapper, hconf, hget, hfr, hnexp, hnupd, callKey]

/-- C1 witness: a fresh entry is returned directly, post-processed, with only
the eviction read notification in the trace. -/
theorem C1_dispatch_witness :
    wrapper demoFreshEnv [] [] = ([.markRead 0], .value 5) :=
  (C1_dispatch demoFreshEnv [] [] (some ⟨0, 10, 20, 5⟩) rfl rfl).2.2.2.2
    ⟨0, 10, 20, 5⟩ rfl rfl (by decide) (by decide)

/-- C8 counterexample: when `storage.get` raises, the wrapper (which has no
exception handler around the `get`, wrapper.py line 149) surfaces the storage
error itself to the caller and performs no refresh, unlike the claimed
treat-as-missing behaviour shown by the same environment with a missing
key. -/
theorem C8_counterexample :
    wrapper demoFailingGetEnv [] [] = ([], .raised (.user 7)) ∧
    wrapper { demoFailingGetEnv with getResult := .ok none } [] [] =
      ([.markBeingUpdated 0, .offerOk 0 ⟨0, 10, 20, 5⟩, .markUpdated 0 ⟨0, 10, 20, 5⟩,
        .markWritten 0 ⟨0, 10, 20, 5⟩], .value 5) ∧
    wrapper demoFailingGetEnv [] [] ≠
      wrapper { demoFailingGetEnv with getResult := .ok none } [] [] := by
  decide

/-- C8 (amended): if `storage.get(key)` raises, the exception propagates
as-is to the caller: no refresh is attempted, nothing is returned, and the
error is not converted or swallowed. -/
theorem C8_amended_get_propagates (env : WrapperEnv) (args : List PyVal) (kwargs : Kwargs)
    (c : Cause) (hconf : env.configured = true) (hget : env.getResult = .error c) :
    wrapper env args kwargs = ([], .raised c) := by
  simp [wrapper, hconf, hget]

/-- C8 witness: concrete propagated storage failure. -/
theorem C8_amended_get_propagates_witness :
    wrapper demoFailingGetEnv [] [] = ([], .raised (.user 7)) :=
  C8_amended_get_propagates demoFailingGetEnv [] [] (.user 7) rfl rfl

/-- C9 counterexample: the reserved flag is `force_refresh_memoized`, not
`force_refresh`: a call passing `force_refresh=True` neither takes the
blocking-refresh branch nor has the flag stripped — the flag stays in the
keyword arguments handed to key derivation and the user callable (the demo
key extractor counts them: the key is 1, not 0) — whereas
`force_refresh_memoized=True` is popped and forces the refresh. -/
theorem C9_counterexample :
    forceFlag [("force_refresh", PyVal.bool true)] = false ∧
    strippedKwargs [("force_refresh", PyVal.bool true)] =
      [("force_refresh", PyVal.bool true)] ∧
    wrapper demoFreshEnv [] [("force_refresh", PyVal.bool true)] =
      ([.markRead 1], .value 5) ∧
    forceFlag [("force_refresh_memoized", PyVal.bool true)] = true ∧
    strippedKwargs [("force_refresh_memoized", PyVal.bool true)] = [] := by
  decide

/-- C9 (amended): the reserved named argument is `force_refresh_memoized`
(boolean, default false): it is removed from the named arguments before key
derivation, never reaching the key extractor or the user callable; when it is
absent the flag defaults to false with the arguments untouched; and when it
is truthy the call takes the blocking-refresh branch passing the existing
entry as current. -/
theorem C9_amended_reserved_flag (env : WrapperEnv) (args : List PyVal) (kwargs : Kwargs)
    (e : CacheEntry) (hconf : env.configured = true)
    (hget : env.getResult = .ok (some e)) :
    ((kwargs.find? (fun p => p.1 == "force_refresh_memoized")) = none →
      forceFlag kwargs = false ∧ strippedKwargs kwargs = kwargs) ∧
    (∀ p ∈ strippedKwargs kwargs, p.1 ≠ "force_refresh_memoized") ∧
    (forceFlag kwargs = true →
      wrapper env args kwargs =
        refreshToCall env.postprocess [.markRead (callKey env args kwargs)]
          (refresh env.renv (some e) (callKey env args kwargs))) := by
  refine ⟨?_, ?_, ?_⟩
  · intro hfind
    constructor
    · simp [forceFlag, popKwarg, hfind, truthy]
    · simp [strippedKwargs, popKwarg, hfind]
  · intro p hp
    unfold strippedKwargs popKwarg at hp
    cases hfind : kwargs.find? (fun q => q.1 == "force_refresh_memoized") with
    | some q =>
      rw [hfind] at hp
      simp at hp
      obtain ⟨-, hne⟩ := hp
      simpa using hne
    | none =>
      rw [hfind] at hp
      simp at hp
      have := List.find?_eq_none.mp hfind p hp
      simpa using this
  · intro hfr
    simp [wrapper, hconf, hget, hfr, callKey]

/-- C9 witness: the popped flag forces a blocking refresh that replaces the
fresh entry. -/
theorem C9_amended_reserved_flag_witness :
    wrapper demoFreshEnv [] [("force_refresh_memoized", PyVal.bool true)] =
      ([.markRead 0, .markBeingUpdated 0, .offerOk 0 ⟨0, 10, 20, 5⟩,
        .markUpdated 0 ⟨0, 10, 20, 5⟩, .markWritten 0 ⟨0, 10, 20, 5⟩], .value 5) := by
  have h := (C9_amended_reserved_flag demoFreshEnv []
    [("force_refresh_memoized", PyVal.bool true)] ⟨0, 10, 20, 5⟩ rfl rfl).2.2 (by decide)
  rw [h]
  decide

end Memoize
